import Mathlib

/-!
# Verification of the color-tap puzzle core

A shallow embedding, in Lean 4, of the algorithmic core of the color-tap
repository: the shape data model (`shape_behaviors.py`, `nested_shapes.py`),
the winnability validator and overlap fixer (`level_validator.py`), the
collision/elimination engine (`game.py`), the physics integrator
(`shape_behaviors.py`), the recursive zone subdivision engine
(`zone_level_generator.py`) and the level persistence layer (`level_data.py`).

Modelling conventions:
* Python floats are modelled as exact rationals (`ℚ`); `math.sqrt` has no
  exact rational counterpart, so every function that calls it takes an
  explicit `sqrtQ : ℚ → ℚ` oracle standing for the machine square root.
  Properties proved for every oracle in particular hold for the real one.
* Python `int` arithmetic is `ℤ`; Python's floor division `//` by a positive
  divisor coincides with Lean's `/` on `ℤ`.
* `random.*` draws are passed in as explicit oracle arguments.
* Fallible Python code (exceptions) is modelled with `Except`.
-/

set_option maxRecDepth 10000

/-- An RGB colour, the `(r, g, b)` integer triple of `config.Color`. -/
abbrev RGB := ℕ × ℕ × ℕ

/-- `config.Color.RED`. -/
def Color_RED : RGB := (255, 0, 0)

/-- `config.Color.GREEN`. -/
def Color_GREEN : RGB := (0, 255, 0)

/-- `config.Color.BLUE`. -/
def Color_BLUE : RGB := (0, 0, 255)

/-- `config.Color.YELLOW`. -/
def Color_YELLOW : RGB := (255, 255, 0)

/-- `config.Color.PURPLE`. -/
def Color_PURPLE : RGB := (128, 0, 128)

/-- `config.Color.ORANGE`. -/
def Color_ORANGE : RGB := (255, 165, 0)

/-- `config.Color.AURORA_MINT`. -/
def Color_AURORA_MINT : RGB := (71, 225, 166)

/-- `config.Color.AURORA_PINK`. -/
def Color_AURORA_PINK : RGB := (255, 121, 198)

/-- `config.Color.SUNSET_CORAL`. -/
def Color_SUNSET_CORAL : RGB := (255, 158, 128)

/-- `config.Color.SUNSET_YELLOW`. -/
def Color_SUNSET_YELLOW : RGB := (255, 206, 84)

/-- `config.Color.FOREST_LIGHT_GREEN`. -/
def Color_FOREST_LIGHT_GREEN : RGB := (144, 238, 144)

/-- `config.Color.FOREST_GREEN`. -/
def Color_FOREST_GREEN : RGB := (34, 139, 34)

/-- `config.WINDOW_WIDTH`. -/
def WINDOW_WIDTH : ℤ := 800

/-- `config.WINDOW_HEIGHT`. -/
def WINDOW_HEIGHT : ℤ := 600

/-- Wall attachment sides of `nested_shapes.StaticShape` (`attachment_side`). -/
inductive Side where
  | left
  | right
  | top
  | bottom
deriving DecidableEq, Repr

/-- The concrete class of a shape object.  `circle`/`square`/`triangle` carry
no data beyond the base `Shape` fields; `rectangle` adds `width`/`height`
(`shape_behaviors.Rectangle`); `nestedShape` is `nested_shapes.NestedShape`
with its `shells` list (colour, size pairs, outermost first) and `is_static`
flag; `staticShape` is `nested_shapes.StaticShape` (a subclass of
`NestedShape`) with its `attachment_side` and `is_hollow` flags. -/
inductive ShapeVariant where
  | circle
  | square
  | triangle
  | rectangle (width height : ℤ)
  | nestedShape (shells : List (RGB × ℤ)) (is_static : Bool)
  | staticShape (shells : List (RGB × ℤ)) (attachment_side : Option Side) (is_hollow : Bool)
deriving DecidableEq, Repr

/-- A live shape object: the attributes set by `shape_behaviors.Shape.__init__`
(position, velocity, momentum, mass, size, `base_size`, `being_dragged`,
colour) together with the subclass-specific data. -/
structure GameShape where
  x : ℚ
  y : ℚ
  velocity_x : ℚ
  velocity_y : ℚ
  momentum_x : ℚ
  momentum_y : ℚ
  mass : ℚ
  size : ℤ
  base_size : ℤ
  being_dragged : Bool
  color : RGB
  variant : ShapeVariant
deriving DecidableEq, Repr

/-- `shape_behaviors.Shape.__init__(x, y, color, size)`: velocities and momenta
start at zero, `mass = size / 20.0`, `base_size = size`, not dragged. -/
def mk_shape (x y : ℚ) (color : RGB) (size : ℤ) (variant : ShapeVariant) : GameShape :=
  { x := x, y := y, velocity_x := 0, velocity_y := 0, momentum_x := 0, momentum_y := 0,
    mass := (size : ℚ) / 20, size := size, base_size := size, being_dragged := false,
    color := color, variant := variant }

/-- `isinstance(shape, NestedShape)` — true for both `NestedShape` and its
subclass `StaticShape`. -/
def isNestedInstance (sh : GameShape) : Bool :=
  match sh.variant with
  | .nestedShape _ _ => true
  | .staticShape _ _ _ => true
  | _ => false

/-- The `shells` attribute of a nested/static shape; `[]` for plain shapes
(which have no such attribute — plain shapes never reach the code paths that
read it). -/
def shellsOf (sh : GameShape) : List (RGB × ℤ) :=
  match sh.variant with
  | .nestedShape shells _ => shells
  | .staticShape shells _ _ => shells
  | _ => []

/-- `NestedShape.get_shell_count`. -/
def get_shell_count (sh : GameShape) : ℕ := (shellsOf sh).length

/-! ## `level_validator.LevelValidator.is_level_winnable`

`collections.Counter` is embedded as an association list with per-key
accumulation: `counter_add` mirrors `counter[c] += k` and `counter_get`
mirrors `counter.get(c, 0)`. -/

/-- `color_counts[c] += k` on an association-list counter: bump the entry for
`c` if present, otherwise append a fresh entry at the end (insertion order,
as a Python dict). -/
def counter_add (m : List (RGB × ℕ)) (c : RGB) (k : ℕ) : List (RGB × ℕ) :=
  match m with
  | [] => [(c, k)]
  | (c₀, v) :: rest => if c₀ = c then (c₀, v + k) :: rest else (c₀, v) :: counter_add rest c k

/-- `color_counts.get(c, 0)`. -/
def counter_get (m : List (RGB × ℕ)) (c : RGB) : ℕ :=
  match m with
  | [] => 0
  | (c₀, v) :: rest => if c₀ = c then v else counter_get rest c

/-- The per-shape count contribution in `is_level_winnable`: a
`NestedShape` (or `StaticShape`) adds `get_shell_count()` to its colour, any
other shape adds 1. -/
def winnable_contribution (sh : GameShape) : ℕ :=
  if isNestedInstance sh then get_shell_count sh else 1

/-- The colour counter built by the first loop of `is_level_winnable`
(`level_validator.py` lines 46–53). -/
def color_counts (shapes : List GameShape) : List (RGB × ℕ) :=
  shapes.foldl (fun m sh => counter_add m sh.color (winnable_contribution sh)) []

/-- `level_validator.LevelValidator.is_level_winnable` (lines 43–65). -/
def is_level_winnable (shapes : List GameShape) (target_color : RGB) : Bool :=
  let counts := color_counts shapes
  let target_count := counter_get counts target_color
  if target_count < 2 then false
  else
    let total_pairs := (counts.map (fun p => p.2 / 2)).sum
    let target_pairs := target_count / 2
    decide (0 < target_pairs) &&
      (decide (total_pairs = target_pairs) || decide (target_pairs = 1))

/-! Spec-side counting, phrased from the claim: "counting each plain shape as
1 of its colour and each nested shape as contributing its shell count to its
current outer colour".  (The class keeps the `color` attribute equal to the
outermost shell's colour — `NestedShape.__init__` and `remove_outer_shell`
both re-sync it — so the current outer colour is the `color` field.) -/

/-- Spec-side count of a single colour over a shape list. -/
def spec_color_count (shapes : List GameShape) (c : RGB) : ℕ :=
  (shapes.map (fun sh => if sh.color = c then winnable_contribution sh else 0)).sum

/-- Spec-side `total_pairs`: the sum of `⌊count_c / 2⌋` over all colours
(each colour occurring in the level counted once). -/
def spec_total_pairs (shapes : List GameShape) : ℕ :=
  (((shapes.map (fun sh => sh.color)).dedup).map (fun c => spec_color_count shapes c / 2)).sum

lemma counter_get_add (m : List (RGB × ℕ)) (c : RGB) (k : ℕ) (c' : RGB) :
    counter_get (counter_add m c k) c' =
      if c' = c then counter_get m c' + k else counter_get m c' := by
  induction m with
  | nil =>
    by_cases h : c' = c
    · simp [counter_add, counter_get, h]
    · simp [counter_add, counter_get, h, Ne.symm h]
  | cons p rest ih =>
    obtain ⟨c₀, v⟩ := p
    simp only [counter_add]
    by_cases h₀ : c₀ = c
    · subst h₀
      simp only [if_pos rfl]
      by_cases h' : c' = c₀
      · subst h'; simp [counter_get]
      · simp [counter_get, h', Ne.symm h']
    · simp only [if_neg h₀]
      by_cases h' : c₀ = c'
      · subst h'
        simp [counter_get, h₀]
      · simp [counter_get, h', ih]

lemma counter_keys_add (m : List (RGB × ℕ)) (c : RGB) (k : ℕ) :
    (counter_add m c k).map Prod.fst =
      if c ∈ m.map Prod.fst then m.map Prod.fst else m.map Prod.fst ++ [c] := by
  induction m with
  | nil => simp [counter_add]
  | cons p rest ih =>
    obtain ⟨c₀, v⟩ := p
    by_cases h₀ : c₀ = c
    · simp [counter_add, h₀]
    · have : ¬ c = c₀ := fun h => h₀ h.symm
      by_cases hmem : c ∈ rest.map Prod.fst <;>
        simp [counter_add, h₀, ih, hmem, this]

lemma color_counts_spec (shapes : List GameShape) :
    (∀ c, counter_get (color_counts shapes) c = spec_color_count shapes c) ∧
    ((color_counts shapes).map Prod.fst).Nodup ∧
    (∀ c, c ∈ (color_counts shapes).map Prod.fst ↔
      c ∈ shapes.map (fun sh => sh.color)) := by
  induction shapes using List.reverseRecOn with
  | nil => simp [color_counts, counter_get, spec_color_count]
  | append_singleton l sh ih =>
    obtain ⟨ihget, ihnd, ihmem⟩ := ih
    have hfold : color_counts (l ++ [sh]) =
        counter_add (color_counts l) sh.color (winnable_contribution sh) := by
      simp [color_counts, List.foldl_append]
    have hspec : ∀ c, spec_color_count (l ++ [sh]) c =
        spec_color_count l c + (if sh.color = c then winnable_contribution sh else 0) := by
      intro c; simp [spec_color_count]
    refine ⟨?_, ?_, ?_⟩
    · intro c
      rw [hfold, counter_get_add, hspec, ihget]
      by_cases h : c = sh.color
      · simp [h]
      · simp [h, Ne.symm h]
    · rw [hfold, counter_keys_add]
      by_cases hmem : sh.color ∈ (color_counts l).map Prod.fst
      · simpa [hmem] using ihnd
      · simp [hmem, List.nodup_append, ihnd]
    · intro c
      rw [hfold, counter_keys_add]
      by_cases hmem : sh.color ∈ (color_counts l).map Prod.fst
      · have := (ihmem sh.color).mp hmem
        by_cases hc : c = sh.color <;> simp [hmem, ihmem, hc, this]
      · by_cases hc : c = sh.color <;> simp [hmem, ihmem, hc]

lemma counter_values_eq (m : List (RGB × ℕ)) (hnd : (m.map Prod.fst).Nodup) :
    m.map (fun p => p.2 / 2) = (m.map Prod.fst).map (fun c => counter_get m c / 2) := by
  induction m with
  | nil => rfl
  | cons p rest ih =>
    obtain ⟨c₀, v⟩ := p
    simp only [List.map_cons, List.nodup_cons] at hnd ⊢
    obtain ⟨hnotmem, hnd'⟩ := hnd
    congr 1
    · simp [counter_get]
    · rw [ih hnd']
      apply List.map_congr_left
      intro c hc
      have hne : ¬ c₀ = c := by
        rintro rfl; exact hnotmem hc
      simp [counter_get, hne]

lemma total_pairs_eq (shapes : List GameShape) :
    ((color_counts shapes).map (fun p => p.2 / 2)).sum = spec_total_pairs shapes := by
  obtain ⟨hget, hnd, hmem⟩ := color_counts_spec shapes
  rw [counter_values_eq _ hnd]
  have hperm : ((color_counts shapes).map Prod.fst).Perm
      ((shapes.map (fun sh => sh.color)).dedup) := by
    refine List.perm_of_nodup_nodup_toFinset_eq hnd (List.nodup_dedup _) ?_
    ext c
    simp [List.mem_toFinset, hmem, List.mem_dedup]
  have hfun : (fun c => counter_get (color_counts shapes) c / 2) =
      fun c => spec_color_count shapes c / 2 := funext fun c => by rw [hget]
  rw [hfun]
  exact (hperm.map _).sum_eq

/-- C1: `is_level_winnable(shapes, target)` returns true iff, counting each
plain shape as 1 of its colour and each nested shape as contributing its
shell count to its current outer colour, the target colour's count is at
least 2 and, with `target_pairs = ⌊target_count/2⌋` and
`total_pairs = Σ⌊count_c/2⌋`, either `total_pairs = target_pairs` or
`target_pairs = 1`. -/
theorem claim_c1_is_level_winnable_iff (shapes : List GameShape) (target_color : RGB) :
    is_level_winnable shapes target_color = true ↔
      2 ≤ spec_color_count shapes target_color ∧
        (spec_total_pairs shapes = spec_color_count shapes target_color / 2 ∨
          spec_color_count shapes target_color / 2 = 1) := by
  have hget := (color_counts_spec shapes).1 target_color
  have htot := total_pairs_eq shapes
  simp only [is_level_winnable, hget, htot]
  split_ifs with h
  · simp; omega
  · simp only [Bool.and_eq_true, Bool.or_eq_true, decide_eq_true_eq]
    omega

/-! ## C2: the `{RED:3, BLUE:2}` example -/

/-- Five plain shapes with colour counts `{RED: 3, BLUE: 2}`. -/
def c2_example_shapes : List GameShape :=
  [ mk_shape 100 100 Color_RED 30 .circle,
    mk_shape 200 100 Color_RED 30 .circle,
    mk_shape 300 100 Color_RED 30 .circle,
    mk_shape 400 100 Color_BLUE 25 .circle,
    mk_shape 500 100 Color_BLUE 25 .circle ]

/-- C2 counterexample: on a shape set whose per-colour counts are
`{RED: 3, BLUE: 2}` (all plain shapes), `is_level_winnable` with target RED
returns **true**, not false as the claim states: `target_pairs = 1`
satisfies the `target_pairs == 1` disjunct even though
`total_pairs = 2 ≠ 1 = target_pairs`. -/
theorem claim_c2_counterexample : is_level_winnable c2_example_shapes Color_RED = true := by
  decide

lemma spec_count_all_plain (shapes : List GameShape)
    (h : ∀ sh ∈ shapes, isNestedInstance sh = false) (c : RGB) :
    spec_color_count shapes c = shapes.countP (fun sh => decide (sh.color = c)) := by
  induction shapes with
  | nil => rfl
  | cons sh rest ih =>
    have hsh : isNestedInstance sh = false := h sh (by simp)
    have hrest : ∀ s ∈ rest, isNestedInstance s = false := fun s hs => h s (by simp [hs])
    have hcontrib : winnable_contribution sh = 1 := by
      simp [winnable_contribution, hsh]
    have hstep : spec_color_count (sh :: rest) c =
        (if sh.color = c then 1 else 0) + spec_color_count rest c := by
      simp only [spec_color_count, List.map_cons, List.sum_cons, hcontrib]
    rw [hstep, ih hrest, List.countP_cons]
    by_cases hc : sh.color = c
    · simp [hc]
      omega
    · simp [hc]


lemma mem_colors_of_countP_pos (shapes : List GameShape) (c : RGB)
    (h : 0 < shapes.countP (fun sh => decide (sh.color = c))) :
    c ∈ shapes.map (fun sh => sh.color) := by
  obtain ⟨sh, hsh, hc⟩ := List.countP_pos_iff.mp h
  simp only [decide_eq_true_eq] at hc
  exact List.mem_map.mpr ⟨sh, hsh, hc⟩

/-- C2 amended: for **every** all-plain shape set with per-colour counts
`{RED: 3, BLUE: 2}`, `is_level_winnable` with target RED returns true
(`target_pairs = 1` triggers the `target_pairs == 1` disjunct). -/
theorem claim_c2_amended (shapes : List GameShape)
    (hplain : ∀ sh ∈ shapes, isNestedInstance sh = false)
    (hcols : ∀ sh ∈ shapes, sh.color = Color_RED ∨ sh.color = Color_BLUE)
    (hred : shapes.countP (fun sh => decide (sh.color = Color_RED)) = 3)
    (hblue : shapes.countP (fun sh => decide (sh.color = Color_BLUE)) = 2) :
    is_level_winnable shapes Color_RED = true := by
  have hR : spec_color_count shapes Color_RED = 3 := by
    rw [spec_count_all_plain shapes hplain, hred]
  have hB : spec_color_count shapes Color_BLUE = 2 := by
    rw [spec_count_all_plain shapes hplain, hblue]
  have hperm : ((shapes.map (fun sh => sh.color)).dedup).Perm [Color_RED, Color_BLUE] := by
    refine List.perm_of_nodup_nodup_toFinset_eq (List.nodup_dedup _) (by decide) ?_
    ext c
    simp only [List.mem_toFinset, List.mem_dedup]
    constructor
    · intro hc
      obtain ⟨sh, hsh, rfl⟩ := List.mem_map.mp hc
      simpa using hcols sh hsh
    · intro hc
      rcases List.mem_pair.mp (by simpa using hc) with rfl | rfl
      · exact mem_colors_of_countP_pos shapes _ (by omega)
      · exact mem_colors_of_countP_pos shapes _ (by omega)
  have hT : spec_total_pairs shapes = 2 := by
    unfold spec_total_pairs
    rw [(hperm.map (fun c => spec_color_count shapes c / 2)).sum_eq]
    simp [hR, hB]
  have hget := (color_counts_spec shapes).1 Color_RED
  have htot := total_pairs_eq shapes
  simp [is_level_winnable, hget, htot, hR, hT]

/-- C2 witness for the amended claim: a geometrically different all-plain
`{RED: 3, BLUE: 2}` configuration, shown winnable by the amended theorem. -/
theorem claim_c2_amended_witness :
    is_level_winnable
      [ mk_shape 120 90 Color_RED 22 .square,
        mk_shape 640 480 Color_RED 35 .triangle,
        mk_shape 320 240 Color_RED 28 .circle,
        mk_shape 500 150 Color_BLUE 30 (.rectangle 60 40),
        mk_shape 200 400 Color_BLUE 24 .circle ] Color_RED = true :=
  claim_c2_amended _ (by decide) (by decide) (by decide) (by decide)

/-! ## C3: same-colour mass elimination (`game.py` lines 157–219)

`Game.handle_same_color_collision` walks `self.shapes` once: a
`NestedShape`/`StaticShape` whose `color` matches the collision colour has
`remove_outer_shell()` called on it (in place) and is collected for removal
when that empties it; any other shape whose `color` matches is collected for
removal; finally the collected shapes are removed from the list (removal is
by object identity, and each object occurs once, so the net effect on the
list is a single `filterMap` pass in the original order). -/

/-- `NestedShape.remove_outer_shell` (`nested_shapes.py` lines 42–53): with
more than one shell, pop the front shell and re-sync `color`/`size` to the
new outer shell, returning `true`; with exactly one shell, clear the list,
returning `true`; with no shells, return `false`.  Plain shapes have no such
method; for them the model returns the shape unchanged with `false` (this
case is unreachable from the collision handler). -/
def remove_outer_shell (sh : GameShape) : GameShape × Bool :=
  match sh.variant with
  | .nestedShape shells is_st =>
    match shells with
    | [] => (sh, false)
    | [_] => ({ sh with variant := .nestedShape [] is_st }, true)
    | _ :: s₂ :: rest =>
      ({ sh with color := s₂.1, size := s₂.2, variant := .nestedShape (s₂ :: rest) is_st }, true)
  | .staticShape shells att hollow =>
    match shells with
    | [] => (sh, false)
    | [_] => ({ sh with variant := .staticShape [] att hollow }, true)
    | _ :: s₂ :: rest =>
      ({ sh with color := s₂.1, size := s₂.2, variant := .staticShape (s₂ :: rest) att hollow }, true)
  | _ => (sh, false)

/-- `NestedShape.is_empty`. -/
def nested_is_empty (sh : GameShape) : Bool := (shellsOf sh).isEmpty

/-- The net effect of `Game.handle_same_color_collision` on the shape list
(the bookkeeping of effects, sounds and messages has no bearing on the list). -/
def handle_same_color_collision (collision_color : RGB) (shapes : List GameShape) :
    List GameShape :=
  shapes.filterMap (fun sh =>
    if isNestedInstance sh then
      if sh.color = collision_color then
        let r := remove_outer_shell sh
        if r.2 then (if nested_is_empty r.1 then none else some r.1) else some sh
      else some sh
    else
      if sh.color = collision_color then none else some sh)

/-- The per-shape effect stated by the claim: a plain shape of the collision
colour is removed; a `NestedShape`/`StaticShape` whose outer (effective)
colour is the collision colour loses exactly its outermost shell — its whole
object being removed when that empties the shell list (in particular a
one-shell nested shape is removed whole), the next shell's colour and size
becoming current otherwise; every shape of a different effective colour is
left unchanged.  (The effective colour of a nested shape is its `color`
attribute, which the class keeps equal to the outermost shell's colour.) -/
def spec_elimination_action (collision_color : RGB) (sh : GameShape) : Option GameShape :=
  if sh.color = collision_color then
    if isNestedInstance sh then
      match shellsOf sh with
      | [] => some sh
      | [_] => none
      | _ :: s₂ :: rest =>
        let peeled : ShapeVariant :=
          match sh.variant with
          | .nestedShape _ is_st => .nestedShape (s₂ :: rest) is_st
          | .staticShape _ att hollow => .staticShape (s₂ :: rest) att hollow
          | v => v
        some { sh with color := s₂.1, size := s₂.2, variant := peeled }
    else none
  else some sh

/-- C3: after a same-colour collision event with collision colour `c`, the
shape list is exactly the original list with, pointwise: every plain shape of
colour `c` removed; every nested/static shape of effective colour `c`
shedding exactly one (outer) shell, and removed whole when that empties its
shell list; every other shape untouched.  Order is preserved and no other
shape is affected. -/
theorem claim_c3_mass_elimination (shapes : List GameShape) (c : RGB) :
    handle_same_color_collision c shapes = shapes.filterMap (spec_elimination_action c) := by
  unfold handle_same_color_collision
  apply List.filterMap_congr
  intro sh _
  by_cases hc : sh.color = c
  · cases hv : sh.variant with
    | nestedShape shells is_st =>
      cases shells with
      | nil =>
        simp [spec_elimination_action, isNestedInstance, remove_outer_shell, shellsOf, hv, hc]
      | cons s₁ tail =>
        cases tail with
        | nil =>
          simp [spec_elimination_action, isNestedInstance, remove_outer_shell,
            nested_is_empty, shellsOf, hv, hc]
        | cons s₂ rest =>
          simp [spec_elimination_action, isNestedInstance, remove_outer_shell,
            nested_is_empty, shellsOf, hv, hc]
    | staticShape shells att hollow =>
      cases shells with
      | nil =>
        simp [spec_elimination_action, isNestedInstance, remove_outer_shell, shellsOf, hv, hc]
      | cons s₁ tail =>
        cases tail with
        | nil =>
          simp [spec_elimination_action, isNestedInstance, remove_outer_shell,
            nested_is_empty, shellsOf, hv, hc]
        | cons s₂ rest =>
          simp [spec_elimination_action, isNestedInstance, remove_outer_shell,
            nested_is_empty, shellsOf, hv, hc]
    | circle => simp [spec_elimination_action, isNestedInstance, hv, hc]
    | square => simp [spec_elimination_action, isNestedInstance, hv, hc]
    | triangle => simp [spec_elimination_action, isNestedInstance, hv, hc]
    | rectangle w h => simp [spec_elimination_action, isNestedInstance, hv, hc]
  · cases hv : sh.variant <;>
      simp [spec_elimination_action, isNestedInstance, remove_outer_shell, hv, hc]

/-! ## C7: the per-frame collision scan (`game.py` lines 125–155)

Geometry runs on floats in the source; here distances go through the
`sqrtQ` oracle (see the header).  The scan's control flow — which is what C7
is about — is independent of the oracle. -/

/-- `Shape.get_distance_to` (`shape_behaviors.py` lines 98–101). -/
def get_distance_to (sqrtQ : ℚ → ℚ) (a b : GameShape) : ℚ :=
  sqrtQ ((a.x - b.x) * (a.x - b.x) + (a.y - b.y) * (a.y - b.y))

/-- `get_collision_radius`: plain round shapes answer `size`, rectangles
`max(width, height) // 2`, nested/static shapes the outermost shell size
(0 when no shells). -/
def get_collision_radius (sh : GameShape) : ℤ :=
  match sh.variant with
  | .rectangle w h => max w h / 2
  | .nestedShape shells _ => ((shells.head?).map Prod.snd).getD 0
  | .staticShape shells _ _ => ((shells.head?).map Prod.snd).getD 0
  | _ => sh.size

/-- `Shape.is_colliding_with`: distance strictly below the sum of collision
radii.  (`NestedShape.is_colliding_with` special-cases nested/nested pairs but
computes the same comparison.) -/
def is_colliding_with (sqrtQ : ℚ → ℚ) (a b : GameShape) : Bool :=
  decide (get_distance_to sqrtQ a b <
    ((get_collision_radius a + get_collision_radius b : ℤ) : ℚ))

/-- `Shape.bounce_off` (`shape_behaviors.py` lines 106–146): impulse along the
collision normal from the relative velocity (skipped when already
separating), then positional separation proportional to the overlap, split
between the two bodies.  Returns the updated pair `(self, other_shape)`. -/
def bounce_off (sqrtQ : ℚ → ℚ) (a b : GameShape) : GameShape × GameShape :=
  let dx := a.x - b.x
  let dy := a.y - b.y
  let distance := sqrtQ (dx * dx + dy * dy)
  if 0 < distance then
    let dxn := dx / distance
    let dyn := dy / distance
    let rel_vel_x := a.velocity_x - b.velocity_x
    let rel_vel_y := a.velocity_y - b.velocity_y
    let vel_along_normal := rel_vel_x * dxn + rel_vel_y * dyn
    if 0 < vel_along_normal then (a, b)
    else
      let impulse := 3.5 * vel_along_normal * 0.6
      let a₁ := { a with velocity_x := a.velocity_x - impulse * dxn * 0.5,
                         velocity_y := a.velocity_y - impulse * dyn * 0.5 }
      let b₁ := { b with velocity_x := b.velocity_x + impulse * dxn * 0.5,
                         velocity_y := b.velocity_y + impulse * dyn * 0.5 }
      let overlap :=
        ((get_collision_radius a + get_collision_radius b : ℤ) : ℚ) - distance
      if 0 < overlap then
        ({ a₁ with x := a₁.x + dxn * overlap * 0.5, y := a₁.y + dyn * overlap * 0.5 },
         { b₁ with x := b₁.x - dxn * overlap * 0.5, y := b₁.y - dyn * overlap * 0.5 })
      else (a₁, b₁)
  else (a, b)

/-- One observable event of a collision scan, tagged with the scanned pair
of indices. -/
inductive CollisionEvent where
  | bounceEvent (i j : ℕ)
  | elimEvent (i j : ℕ)
deriving DecidableEq, Repr

/-- Whether an event is a mass-elimination event. -/
def is_elim_event : CollisionEvent → Bool
  | .elimEvent _ _ => true
  | .bounceEvent _ _ => false

/-- The ordered index pairs visited by the double loop of `check_collisions`
(`for i, shape1 in enumerate(...)` / `for j, shape2 in enumerate(...)` with
`i >= j` skipped). -/
def collision_scan_pairs (n : ℕ) : List (ℕ × ℕ) :=
  (List.range n).flatMap (fun i =>
    (List.range n).filterMap (fun j => if i < j then some (i, j) else none))

/-- The body of `check_collisions`, walking the pending pair list over the
evolving shape list: a colliding same-colour pair triggers
`handle_same_color_collision` and **returns** (ending the scan); a colliding
different-colour pair triggers `bounce_off` (updating both shapes in place)
and the scan continues.  Returns the final shape list and the event trace. -/
def collision_scan (sqrtQ : ℚ → ℚ) :
    List (ℕ × ℕ) → List GameShape → List GameShape × List CollisionEvent
  | [], shapes => (shapes, [])
  | (i, j) :: rest, shapes =>
    match shapes[i]?, shapes[j]? with
    | some sh1, some sh2 =>
      if is_colliding_with sqrtQ sh1 sh2 then
        if sh1.color = sh2.color then
          (handle_same_color_collision sh1.color shapes, [.elimEvent i j])
        else
          let p := bounce_off sqrtQ sh1 sh2
          let shapes' := (shapes.set i p.1).set j p.2
          let r := collision_scan sqrtQ rest shapes'
          (r.1, .bounceEvent i j :: r.2)
      else collision_scan sqrtQ rest shapes
    | _, _ => collision_scan sqrtQ rest shapes

/-- `Game.check_collisions`. -/
def check_collisions (sqrtQ : ℚ → ℚ) (shapes : List GameShape) :
    List GameShape × List CollisionEvent :=
  collision_scan sqrtQ (collision_scan_pairs shapes.length) shapes

lemma collision_scan_events (sqrtQ : ℚ → ℚ) (pairs : List (ℕ × ℕ))
    (shapes : List GameShape) :
    (collision_scan sqrtQ pairs shapes).2.countP is_elim_event ≤ 1 ∧
      ((collision_scan sqrtQ pairs shapes).2.dropLast.all
        (fun e => !is_elim_event e)) = true := by
  induction pairs generalizing shapes with
  | nil => simp [collision_scan]
  | cons p rest ih =>
    obtain ⟨i, j⟩ := p
    simp only [collision_scan]
    match h1 : shapes[i]?, h2 : shapes[j]? with
    | none, none => exact ih shapes
    | none, some sh2 => exact ih shapes
    | some sh1, none => exact ih shapes
    | some sh1, some sh2 =>
      by_cases hcoll : is_colliding_with sqrtQ sh1 sh2
      · by_cases hsame : sh1.color = sh2.color
        · simp [hcoll, hsame, is_elim_event, List.countP_cons]
        · have ih' :=
            ih ((shapes.set i (bounce_off sqrtQ sh1 sh2).1).set j (bounce_off sqrtQ sh1 sh2).2)
          simp only [hcoll, if_true, if_neg hsame]
          generalize hE : (collision_scan sqrtQ rest
            ((shapes.set i (bounce_off sqrtQ sh1 sh2).1).set j
              (bounce_off sqrtQ sh1 sh2).2)).2 = evs at ih' ⊢
          obtain ⟨ihcount, ihall⟩ := ih'
          refine ⟨by simpa [List.countP_cons, is_elim_event] using ihcount, ?_⟩
          cases evs with
          | nil => simp
          | cons e tail =>
            rw [List.dropLast_cons₂]
            simp only [List.all_cons, Bool.and_eq_true]
            exact ⟨by simp [is_elim_event], ihall⟩
      · simpa [hcoll] using ih shapes

/-- C7: within one frame's collision scan, at most one same-colour
mass-elimination event is processed, and whenever one occurs it is the last
event of the scan — every event before it is a bounce of a
different-coloured colliding pair (of which there may be several). -/
theorem claim_c7_single_elimination_per_frame (sqrtQ : ℚ → ℚ) (shapes : List GameShape) :
    (check_collisions sqrtQ shapes).2.countP is_elim_event ≤ 1 ∧
      ((check_collisions sqrtQ shapes).2.dropLast.all (fun e => !is_elim_event e)) = true :=
  collision_scan_events sqrtQ (collision_scan_pairs shapes.length) shapes

/-! ## C8: `Shape.update` boundary reflection (`shape_behaviors.py` lines 28–80)

`update(beat_time)` is decomposed into the three source stages executed for a
non-dragged shape: physics integration (lines 33–55), boundary reflection
(lines 57–70) and the cosmetic pulse (lines 76–80).  The `random()-0.5`
perturbation draws and the value of `sin(2π·beat_time)` enter as explicit
rational arguments.  `mass` is zero only for a size-0 shape, on which the
original would raise `ZeroDivisionError`; under `ℚ` division by zero yields 0
and all theorems below assume a positive mass. -/

/-- `get_max_dimension`: plain round shapes answer `size`, rectangles
`max(width, height)`, nested/static shapes the outermost shell size. -/
def get_max_dimension (sh : GameShape) : ℤ :=
  match sh.variant with
  | .rectangle w h => max w h
  | .nestedShape shells _ => ((shells.head?).map Prod.snd).getD 0
  | .staticShape shells _ _ => ((shells.head?).map Prod.snd).getD 0
  | _ => sh.size

/-- Python `int(...)`: truncation towards zero. -/
def pyInt (q : ℚ) : ℤ := if 0 ≤ q then ⌊q⌋ else -⌊-q⌋

/-- Lines 33–55 of `Shape.update`: momentum blending (inertia factor 0.85),
viscosity damping (resistance 0.02 · mass), position integration, velocity
friction (0.94) and — when the speed exceeds 0.1 on either axis — the random
perturbation scaled by `0.005 / mass`. -/
def phys_integrate (sh : GameShape) (perturb_x perturb_y : ℚ) : GameShape :=
  let momentum_x := sh.momentum_x * 0.85 + sh.velocity_x * (1 - 0.85)
  let momentum_y := sh.momentum_y * 0.85 + sh.velocity_y * (1 - 0.85)
  let viscosity_factor := 1 - 0.02 * sh.mass
  let momentum_x := momentum_x * viscosity_factor
  let momentum_y := momentum_y * viscosity_factor
  let x := sh.x + momentum_x
  let y := sh.y + momentum_y
  let velocity_x := sh.velocity_x * 0.94
  let velocity_y := sh.velocity_y * 0.94
  let moved := { sh with x := x, y := y, momentum_x := momentum_x, momentum_y := momentum_y }
  if 0.1 < |velocity_x| ∨ 0.1 < |velocity_y| then
    let perturbation := 0.005 / sh.mass
    { moved with velocity_x := velocity_x + perturb_x * perturbation, velocity_y := velocity_y + perturb_y * perturbation }
  else
    { moved with velocity_x := velocity_x, velocity_y := velocity_y }

/-- Lines 57–70 of `Shape.update`: when the max-dimension-extended bounding
box crosses an arena edge, negate and dampen the velocity/momentum component
(dampening `0.6 + 0.2/mass`) and clamp the coordinate into
`[max_dimension, WINDOW − max_dimension]`. -/
def boundary_reflect (sh : GameShape) : GameShape :=
  let max_dimension : ℚ := (get_max_dimension sh : ℚ)
  let bounce_dampening : ℚ := 0.6 + 0.2 / sh.mass
  let s₁ := if sh.x - max_dimension ≤ 0 ∨ (WINDOW_WIDTH : ℚ) ≤ sh.x + max_dimension then { sh with velocity_x := -sh.velocity_x * bounce_dampening, momentum_x := -sh.momentum_x * bounce_dampening, x := max max_dimension (min ((WINDOW_WIDTH : ℚ) - max_dimension) sh.x) } else sh
  if s₁.y - max_dimension ≤ 0 ∨ (WINDOW_HEIGHT : ℚ) ≤ s₁.y + max_dimension then { s₁ with velocity_y := -s₁.velocity_y * bounce_dampening, momentum_y := -s₁.momentum_y * bounce_dampening, y := max max_dimension (min ((WINDOW_HEIGHT : ℚ) - max_dimension) s₁.y) } else s₁

/-- Lines 76–80 of `Shape.update`: the pulsing visual size
`int(base_size * (1 + 0.08 * sin(2π·beat_time)))`. -/
def pulse_update (sh : GameShape) (sin_beat : ℚ) : GameShape :=
  let pulse_scale := 1 + 0.08 * sin_beat
  { sh with size := pyInt ((sh.base_size : ℚ) * pulse_scale) }

/-- `Shape.update(beat_time)`: dragged shapes only re-sync momentum to
velocity (and pulse); everything else integrates, reflects and pulses. -/
def shape_update (sh : GameShape) (perturb_x perturb_y sin_beat : ℚ) : GameShape :=
  if sh.being_dragged then
    pulse_update { sh with momentum_x := sh.velocity_x, momentum_y := sh.velocity_y } sin_beat
  else
    pulse_update (boundary_reflect (phys_integrate sh perturb_x perturb_y)) sin_beat

/-- A small circle (`Circle(3, 300, RED, 5)`, so `mass = 0.25`) drifting into
the left wall. -/
def c8_small_shape : GameShape :=
  { mk_shape 3 300 Color_RED 5 .circle with velocity_x := -2, momentum_x := -2 }

/-- C8 counterexample: for this shape the position update would place it left
of `[maxDim, arenaWidth − maxDim]`, yet after `update()` the X-velocity's
magnitude is strictly **larger** than just before the reflection — the
dampening factor `0.6 + 0.2/mass = 1.4` exceeds 1 for `mass = 0.25 ≤ 0.5`, so
the claimed strict magnitude reduction fails. -/
theorem claim_c8_counterexample :
    ((phys_integrate c8_small_shape 0 0).x -
        (get_max_dimension (phys_integrate c8_small_shape 0 0) : ℚ) ≤ 0) ∧
      |(phys_integrate c8_small_shape 0 0).velocity_x| <
        |(shape_update c8_small_shape 0 0 0).velocity_x| := by
  have hx : (phys_integrate c8_small_shape 0 0).x = 101/100 := by
    norm_num [phys_integrate, c8_small_shape, mk_shape, apply_ite GameShape.x]
  have hmd : get_max_dimension (phys_integrate c8_small_shape 0 0) = 5 := by
    norm_num [get_max_dimension, phys_integrate, c8_small_shape, mk_shape,
      apply_ite GameShape.variant, apply_ite GameShape.size]
  have hv1 : (phys_integrate c8_small_shape 0 0).velocity_x = -47/25 := by
    norm_num [phys_integrate, c8_small_shape, mk_shape, lt_abs,
      apply_ite GameShape.velocity_x]
  have hv2 : (shape_update c8_small_shape 0 0 0).velocity_x = 329/125 := by
    norm_num [shape_update, pulse_update, boundary_reflect, phys_integrate,
      c8_small_shape, mk_shape, get_max_dimension, WINDOW_WIDTH, WINDOW_HEIGHT, lt_abs,
      apply_ite GameShape.velocity_x, apply_ite GameShape.velocity_y,
      apply_ite GameShape.x, apply_ite GameShape.y, apply_ite GameShape.mass,
      apply_ite GameShape.variant, apply_ite GameShape.size,
      apply_ite GameShape.momentum_x, apply_ite GameShape.momentum_y,
      apply_ite GameShape.base_size]
  refine ⟨?_, ?_⟩
  · rw [hx, hmd]; norm_num
  · rw [hv1, hv2, abs_of_neg (by norm_num : (-47/25 : ℚ) < 0),
      abs_of_pos (by norm_num : (0 : ℚ) < 329/125)]
    norm_num

lemma phys_integrate_preserves (sh : GameShape) (px py : ℚ) :
    (phys_integrate sh px py).mass = sh.mass ∧
      (phys_integrate sh px py).being_dragged = sh.being_dragged ∧
      get_max_dimension (phys_integrate sh px py) = get_max_dimension sh := by
  refine ⟨?_, ?_, ?_⟩ <;> (simp only [phys_integrate]; split <;> rfl)

lemma boundary_reflect_hit_x (s : GameShape)
    (h : s.x - (get_max_dimension s : ℚ) ≤ 0 ∨
      (WINDOW_WIDTH : ℚ) ≤ s.x + (get_max_dimension s : ℚ)) :
    (boundary_reflect s).x =
        max ((get_max_dimension s : ℚ))
          (min ((WINDOW_WIDTH : ℚ) - (get_max_dimension s : ℚ)) s.x) ∧
      (boundary_reflect s).velocity_x = -s.velocity_x * (0.6 + 0.2 / s.mass) := by
  simp only [boundary_reflect, if_pos h]
  split <;> simp

/-- C8 amended: for a non-dragged shape of mass above 0.5 (size above 10)
whose position update would cross the X boundary and whose pre-reflection
X-velocity is nonzero, `update()` clamps X into
`[maxDim, arenaWidth − maxDim]` (provided that interval is nonempty), flips
the X-velocity's sign relative to just before the reflection, and strictly
reduces its magnitude.  For masses ≤ 0.5 the dampening factor
`0.6 + 0.2/mass ≥ 1` and the magnitude is *not* reduced (see the
counterexample), so the mass bound is necessary. -/
theorem claim_c8_amended (sh : GameShape) (perturb_x perturb_y sin_beat : ℚ)
    (hdrag : sh.being_dragged = false)
    (hmass : 1/2 < sh.mass)
    (hdim : 2 * get_max_dimension sh ≤ WINDOW_WIDTH)
    (htrig : (phys_integrate sh perturb_x perturb_y).x - (get_max_dimension sh : ℚ) ≤ 0 ∨
      (WINDOW_WIDTH : ℚ) ≤ (phys_integrate sh perturb_x perturb_y).x + (get_max_dimension sh : ℚ))
    (hvx : (phys_integrate sh perturb_x perturb_y).velocity_x ≠ 0) :
    ((get_max_dimension sh : ℚ) ≤ (shape_update sh perturb_x perturb_y sin_beat).x ∧
        (shape_update sh perturb_x perturb_y sin_beat).x ≤
          (WINDOW_WIDTH : ℚ) - (get_max_dimension sh : ℚ)) ∧
      (shape_update sh perturb_x perturb_y sin_beat).velocity_x *
          (phys_integrate sh perturb_x perturb_y).velocity_x < 0 ∧
      |(shape_update sh perturb_x perturb_y sin_beat).velocity_x| <
        |(phys_integrate sh perturb_x perturb_y).velocity_x| := by
  obtain ⟨hm, hd, hmd⟩ := phys_integrate_preserves sh perturb_x perturb_y
  set t := phys_integrate sh perturb_x perturb_y with ht
  have htrig' : t.x - (get_max_dimension t : ℚ) ≤ 0 ∨
      (WINDOW_WIDTH : ℚ) ≤ t.x + (get_max_dimension t : ℚ) := by
    rw [hmd]; exact htrig
  obtain ⟨hX, hV⟩ := boundary_reflect_hit_x t htrig'
  have hupd : shape_update sh perturb_x perturb_y sin_beat =
      pulse_update (boundary_reflect t) sin_beat := by
    unfold shape_update
    rw [hdrag]
    simp
  have hux : (shape_update sh perturb_x perturb_y sin_beat).x = (boundary_reflect t).x := by
    rw [hupd]; rfl
  have huv : (shape_update sh perturb_x perturb_y sin_beat).velocity_x =
      (boundary_reflect t).velocity_x := by
    rw [hupd]; rfl
  have hmass0 : (0 : ℚ) < sh.mass := lt_trans (by norm_num) hmass
  have hdamp_pos : (0 : ℚ) < 0.6 + 0.2 / t.mass := by
    rw [hm]
    have : (0 : ℚ) < 0.2 / sh.mass := div_pos (by norm_num) hmass0
    linarith
  have hdamp_lt : 0.6 + 0.2 / t.mass < 1 := by
    rw [hm]
    have : (0.2 : ℚ) / sh.mass < 0.4 := by
      rw [div_lt_iff₀ hmass0]
      linarith
    linarith
  have hmdq : ((get_max_dimension sh : ℚ)) ≤ (WINDOW_WIDTH : ℚ) - (get_max_dimension sh : ℚ) := by
    have : ((2 * get_max_dimension sh : ℤ) : ℚ) ≤ ((WINDOW_WIDTH : ℤ) : ℚ) := by
      exact_mod_cast hdim
    push_cast at this
    linarith
  refine ⟨?_, ?_, ?_⟩
  · rw [hux, hX, hmd]
    constructor
    · exact le_max_left _ _
    · exact max_le hmdq (le_trans (min_le_left _ _) (le_refl _))
  · rw [huv, hV]
    have hsq : (0 : ℚ) < t.velocity_x ^ 2 :=
      (sq_nonneg t.velocity_x).lt_of_ne (Ne.symm (pow_ne_zero 2 hvx))
    nlinarith
  · rw [huv, hV]
    have habs : |-t.velocity_x * (0.6 + 0.2 / t.mass)| =
        |t.velocity_x| * (0.6 + 0.2 / t.mass) := by
      rw [abs_mul, abs_neg, abs_of_pos hdamp_pos]
    rw [habs]
    have : |t.velocity_x| * (0.6 + 0.2 / t.mass) < |t.velocity_x| * 1 :=
      mul_lt_mul_of_pos_left hdamp_lt (abs_pos.mpr hvx)
    linarith

/-- A size-30 circle (`mass = 1.5`) pushed into the left wall. -/
def c8_witness_shape : GameShape :=
  { mk_shape 20 300 Color_BLUE 30 .circle with velocity_x := -1, momentum_x := -10 }

/-- C8 witness: the amended boundary-reflection property at a concrete
heavy-enough shape. -/
theorem claim_c8_amended_witness :
    ((get_max_dimension c8_witness_shape : ℚ) ≤ (shape_update c8_witness_shape 0 0 0).x ∧
        (shape_update c8_witness_shape 0 0 0).x ≤
          (WINDOW_WIDTH : ℚ) - (get_max_dimension c8_witness_shape : ℚ)) ∧
      (shape_update c8_witness_shape 0 0 0).velocity_x *
          (phys_integrate c8_witness_shape 0 0).velocity_x < 0 ∧
      |(shape_update c8_witness_shape 0 0 0).velocity_x| <
        |(phys_integrate c8_witness_shape 0 0).velocity_x| :=
  claim_c8_amended c8_witness_shape 0 0 0 rfl
    (by norm_num [c8_witness_shape, mk_shape])
    (by norm_num [get_max_dimension, c8_witness_shape, mk_shape, WINDOW_WIDTH])
    (Or.inl (by norm_num [phys_integrate, get_max_dimension, c8_witness_shape, mk_shape,
      lt_abs, apply_ite GameShape.x]))
    (by norm_num [phys_integrate, c8_witness_shape, mk_shape, lt_abs,
      apply_ite GameShape.velocity_x])

/-! ## The zone subdivision engine (`zone_level_generator.py`)

`PrimeNumberGenerator._generate_primes(1000)` sieves the primes up to 1000;
the embedding produces the same list by trial division (the two procedures
compute the same primality predicate on `range(2, 1001)`). -/

/-- Trial division: no divisor `d, d+1, …` with `d * d ≤ n` divides `n`
(`fuel` bounds the search; `fuel = n` always suffices). -/
def no_small_divisor (n : ℕ) : ℕ → ℕ → Bool
  | _, 0 => true
  | d, fuel + 1 =>
    if n < d * d then true
    else if n % d = 0 then false
    else no_small_divisor n (d + 1) fuel

/-- Primality test agreeing with the sieve of Eratosthenes. -/
def is_prime (n : ℕ) : Bool := decide (2 ≤ n) && no_small_divisor n 2 n

/-- `PrimeNumberGenerator.primes`: the primes in `range(2, 1001)`. -/
def primes : List ℕ := ((List.range 1001).drop 2).filter is_prime

lemma primes_length : primes.length = 168 := by decide

lemma primes_first_four :
    primes[0]! = 2 ∧ primes[1]! = 3 ∧ primes[2]! = 5 ∧ primes[3]! = 7 := by decide

/-- A `Zone`'s rectangle and recursion depth (`zone_level_generator.Zone`). -/
structure ZoneRect where
  x : ℤ
  y : ℤ
  width : ℤ
  height : ℤ
  depth : ℕ
deriving DecidableEq, Repr

/-- A zone with its recursively created child zones (children empty ⇔ leaf). -/
inductive ZoneTree where
  | node (zone : ZoneRect) (children : List ZoneTree)
deriving Repr

/-- `ZoneLevelGenerator._subdivide_zone` (lines 143–217), together with the
three subdivision helpers it dispatches to.  The golden-ratio split points
`int(y + height / φ)` and `int(x + width / φ)` are float computations,
abstracted as the split functions `split_h`/`split_v`; quadrant midpoints use
exact integer floor division.  The recursion stops when `depth ≥ max_depth`;
`fuel` is a structural bound on the recursion depth (any
`fuel > max_depth − depth` reproduces the original recursion exactly). -/
def subdivide_zone (split_h split_v : ℤ → ℤ → ℤ) (max_depth : ℕ) :
    ℕ → ZoneRect → ZoneTree
  | 0, z => .node z []
  | fuel + 1, z =>
    if max_depth ≤ z.depth then .node z []
    else
      let prime_idx := z.depth % primes.length
      let p := primes[prime_idx]!
      if p % 4 = 1 then
        let split_y := split_h z.y z.height
        let upper : ZoneRect := ⟨z.x, z.y, z.width, split_y - z.y, z.depth + 1⟩
        let lower : ZoneRect := ⟨z.x, split_y, z.width, z.y + z.height - split_y, z.depth + 1⟩
        .node z [subdivide_zone split_h split_v max_depth fuel upper,
                 subdivide_zone split_h split_v max_depth fuel lower]
      else if p % 4 = 3 then
        let split_x := split_v z.x z.width
        let left : ZoneRect := ⟨z.x, z.y, split_x - z.x, z.height, z.depth + 1⟩
        let right : ZoneRect := ⟨split_x, z.y, z.x + z.width - split_x, z.height, z.depth + 1⟩
        .node z [subdivide_zone split_h split_v max_depth fuel left,
                 subdivide_zone split_h split_v max_depth fuel right]
      else
        let mid_x := z.x + z.width / 2
        let mid_y := z.y + z.height / 2
        let q₁ : ZoneRect := ⟨z.x, z.y, mid_x - z.x, mid_y - z.y, z.depth + 1⟩
        let q₂ : ZoneRect := ⟨mid_x, z.y, z.x + z.width - mid_x, mid_y - z.y, z.depth + 1⟩
        let q₃ : ZoneRect := ⟨z.x, mid_y, mid_x - z.x, z.y + z.height - mid_y, z.depth + 1⟩
        let q₄ : ZoneRect := ⟨mid_x, mid_y, z.x + z.width - mid_x, z.y + z.height - mid_y, z.depth + 1⟩
        .node z [subdivide_zone split_h split_v max_depth fuel q₁,
                 subdivide_zone split_h split_v max_depth fuel q₂,
                 subdivide_zone split_h split_v max_depth fuel q₃,
                 subdivide_zone split_h split_v max_depth fuel q₄]

/-- The root zone of `create_zone_based_level`: the window inset by the 50px
margin, at depth 0. -/
def root_zone : ZoneRect :=
  ⟨50, 50, WINDOW_WIDTH - 2 * 50, WINDOW_HEIGHT - 2 * 50, 0⟩

/-- The zone tree built by `create_zone_based_level` (`max_depth = 3`; fuel 4
covers the full recursion from depth 0). -/
def build_zone_tree (split_h split_v : ℤ → ℤ → ℤ) : ZoneTree :=
  subdivide_zone split_h split_v 3 4 root_zone

mutual

/-- The rectangles of the leaf zones of a tree. -/
def zone_leaves : ZoneTree → List ZoneRect
  | .node z [] => [z]
  | .node _ (c :: cs) => zone_leaves_list (c :: cs)

/-- `zone_leaves` over a list of trees. -/
def zone_leaves_list : List ZoneTree → List ZoneRect
  | [] => []
  | t :: ts => zone_leaves t ++ zone_leaves_list ts

end

/-- `PrimeNumberGenerator.get_prime_size_sequence`. -/
def get_prime_size_sequence (length : ℕ) : List ℤ :=
  (List.range length).map (fun i => 20 + (((primes.take (3 + i % 5)).sum % 50 : ℕ) : ℤ))

/-- `ZoneLevelGenerator._get_zone_color_palette`. -/
def get_zone_color_palette (depth : ℕ) : List RGB :=
  [[Color_RED, Color_ORANGE, Color_YELLOW],
   [Color_BLUE, Color_AURORA_MINT, Color_PURPLE],
   [Color_GREEN, Color_FOREST_LIGHT_GREEN, Color_FOREST_GREEN],
   [Color_AURORA_PINK, Color_SUNSET_CORAL, Color_SUNSET_YELLOW]][depth % 4]!

/-- `ZoneLevelGenerator._get_wall_attachment` (30px proximity margin). -/
def get_wall_attachment (z : ZoneRect) (x y : ℤ) : Option Side :=
  if x - z.x < 30 then some .left
  else if z.x + z.width - x < 30 then some .right
  else if y - z.y < 30 then some .top
  else if z.y + z.height - y < 30 then some .bottom
  else none

/-- `StaticShape.__init__`: the outermost shell drives the base colour/size
(`NestedShape.__init__`; an empty shell list would raise `ValueError` — all
callers pass two shells), and a wall attachment snaps the position to that
edge (`_adjust_position_for_attachment`). -/
def static_shape_init (x y : ℚ) (shells : List (RGB × ℤ))
    (attachment_side : Option Side) (is_hollow : Bool) : GameShape :=
  let outer_size := ((shells.head?).map Prod.snd).getD 0
  let s := mk_shape x y (((shells.head?).map Prod.fst).getD Color_RED) outer_size
    (.staticShape shells attachment_side is_hollow)
  match attachment_side with
  | some .left => { s with x := (outer_size : ℚ) }
  | some .right => { s with x := ((WINDOW_WIDTH : ℚ) - (outer_size : ℚ)) }
  | some .top => { s with y := (outer_size : ℚ) }
  | some .bottom => { s with y := ((WINDOW_HEIGHT : ℚ) - (outer_size : ℚ)) }
  | none => s

mutual

/-- `create_static_in_zone`, the recursive worker of
`ZoneLevelGenerator._create_static_shapes_in_zones` (lines 223–258): a leaf
zone is skipped when the depth-indexed prime is divisible by 7 (the comment
reads "Roughly 1/7 chance"); otherwise `1 + prime % 2` static shapes are
placed at oracle-drawn points with prime-derived sizes, hollowness and
wall attachment. -/
def create_static_in_zone (point_oracle : ZoneRect → ℕ → ℤ × ℤ) :
    ZoneTree → List GameShape
  | .node z [] =>
    let prime_idx := z.depth % primes.length
    if primes[prime_idx]! % 7 = 0 then []
    else
      let num_static := 1 + primes[prime_idx]! % 2
      (List.range num_static).map (fun i =>
        let pt := point_oracle z i
        let base_size := ((get_prime_size_sequence 1).head?).getD 0
        let is_hollow := primes[prime_idx]! % 3 = 0
        let attachment := get_wall_attachment z pt.1 pt.2
        let zone_colors := get_zone_color_palette z.depth
        let shells := (List.range 2).map
          (fun j => (zone_colors[j % zone_colors.length]!, base_size - j * 8))
        static_shape_init (pt.1 : ℚ) (pt.2 : ℚ) shells attachment is_hollow)
  | .node _ (c :: cs) => create_static_in_zone_list point_oracle (c :: cs)

/-- `create_static_in_zone` over the child list. -/
def create_static_in_zone_list (point_oracle : ZoneRect → ℕ → ℤ × ℤ) :
    List ZoneTree → List GameShape
  | [] => []
  | t :: ts =>
    create_static_in_zone point_oracle t ++ create_static_in_zone_list point_oracle ts

end

/-- `ZoneLevelGenerator._create_static_shapes_in_zones` applied to the root. -/
def create_static_shapes_in_zones (point_oracle : ZoneRect → ℕ → ℤ × ℤ)
    (root : ZoneTree) : List GameShape :=
  create_static_in_zone point_oracle root

lemma subdivide_depth_ge (split_h split_v : ℤ → ℤ → ℤ) (fuel : ℕ) (z : ZoneRect)
    (h : 3 ≤ z.depth) :
    subdivide_zone split_h split_v 3 fuel z = .node z [] := by
  cases fuel with
  | zero => rfl
  | succ f => simp [subdivide_zone, h]

lemma leaf_depth3_skipped (point_oracle : ZoneRect → ℕ → ℤ × ℤ) (z : ZoneRect)
    (h : z.depth = 3) :
    create_static_in_zone point_oracle (.node z []) = [] := by
  obtain ⟨h0, h1, h2, h3⟩ := primes_first_four
  simp only [create_static_in_zone, h, primes_length]
  norm_num [h3]

lemma statics_node_cons (point_oracle : ZoneRect → ℕ → ℤ × ℤ) (z : ZoneRect)
    (c : ZoneTree) (cs : List ZoneTree) :
    create_static_in_zone point_oracle (.node z (c :: cs)) =
      create_static_in_zone point_oracle c ++ create_static_in_zone_list point_oracle cs := rfl

lemma statics_list_nil (point_oracle : ZoneRect → ℕ → ℤ × ℤ) :
    create_static_in_zone_list point_oracle [] = [] := rfl

lemma statics_list_cons (point_oracle : ZoneRect → ℕ → ℤ × ℤ) (t : ZoneTree)
    (ts : List ZoneTree) :
    create_static_in_zone_list point_oracle (t :: ts) =
      create_static_in_zone point_oracle t ++ create_static_in_zone_list point_oracle ts := rfl

lemma statics_d3 (split_h split_v : ℤ → ℤ → ℤ) (point_oracle : ZoneRect → ℕ → ℤ × ℤ)
    (fuel : ℕ) (z : ZoneRect) (h : z.depth = 3) :
    create_static_in_zone point_oracle (subdivide_zone split_h split_v 3 fuel z) = [] := by
  rw [subdivide_depth_ge split_h split_v fuel z (by omega)]
  exact leaf_depth3_skipped point_oracle z h

lemma statics_d2 (split_h split_v : ℤ → ℤ → ℤ) (point_oracle : ZoneRect → ℕ → ℤ × ℤ)
    (fuel : ℕ) (z : ZoneRect) (h : z.depth = 2) :
    create_static_in_zone point_oracle (subdivide_zone split_h split_v 3 (fuel + 1) z) = [] := by
  obtain ⟨h0, h1, h2, h3⟩ := primes_first_four
  simp only [subdivide_zone, primes_length, h]
  norm_num [h2]
  rw [statics_node_cons, statics_list_cons, statics_list_nil]
  rw [statics_d3 split_h split_v point_oracle fuel _ rfl,
    statics_d3 split_h split_v point_oracle fuel _ rfl]
  simp

lemma subdivide_succ (split_h split_v : ℤ → ℤ → ℤ) (max_depth fuel : ℕ) (z : ZoneRect) :
    subdivide_zone split_h split_v max_depth (fuel + 1) z =
      if max_depth ≤ z.depth then .node z []
      else
        let prime_idx := z.depth % primes.length
        let p := primes[prime_idx]!
        if p % 4 = 1 then
          let split_y := split_h z.y z.height
          let upper : ZoneRect := ⟨z.x, z.y, z.width, split_y - z.y, z.depth + 1⟩
          let lower : ZoneRect := ⟨z.x, split_y, z.width, z.y + z.height - split_y, z.depth + 1⟩
          .node z [subdivide_zone split_h split_v max_depth fuel upper,
                   subdivide_zone split_h split_v max_depth fuel lower]
        else if p % 4 = 3 then
          let split_x := split_v z.x z.width
          let left : ZoneRect := ⟨z.x, z.y, split_x - z.x, z.height, z.depth + 1⟩
          let right : ZoneRect := ⟨split_x, z.y, z.x + z.width - split_x, z.height, z.depth + 1⟩
          .node z [subdivide_zone split_h split_v max_depth fuel left,
                   subdivide_zone split_h split_v max_depth fuel right]
        else
          let mid_x := z.x + z.width / 2
          let mid_y := z.y + z.height / 2
          let q₁ : ZoneRect := ⟨z.x, z.y, mid_x - z.x, mid_y - z.y, z.depth + 1⟩
          let q₂ : ZoneRect := ⟨mid_x, z.y, z.x + z.width - mid_x, mid_y - z.y, z.depth + 1⟩
          let q₃ : ZoneRect := ⟨z.x, mid_y, mid_x - z.x, z.y + z.height - mid_y, z.depth + 1⟩
          let q₄ : ZoneRect := ⟨mid_x, mid_y, z.x + z.width - mid_x, z.y + z.height - mid_y, z.depth + 1⟩
          .node z [subdivide_zone split_h split_v max_depth fuel q₁,
                   subdivide_zone split_h split_v max_depth fuel q₂,
                   subdivide_zone split_h split_v max_depth fuel q₃,
                   subdivide_zone split_h split_v max_depth fuel q₄] := rfl

lemma statics_d1 (split_h split_v : ℤ → ℤ → ℤ) (point_oracle : ZoneRect → ℕ → ℤ × ℤ)
    (fuel : ℕ) (z : ZoneRect) (h : z.depth = 1) :
    create_static_in_zone point_oracle (subdivide_zone split_h split_v 3 (fuel + 2) z) = [] := by
  obtain ⟨h0, h1, h2, h3⟩ := primes_first_four
  rw [show fuel + 2 = (fuel + 1) + 1 from rfl, subdivide_succ split_h split_v 3 (fuel + 1) z]
  norm_num [h, h1, primes_length]
  rw [statics_node_cons, statics_list_cons, statics_list_nil]
  rw [statics_d2 split_h split_v point_oracle fuel _ rfl,
    statics_d2 split_h split_v point_oracle fuel _ rfl]
  simp

lemma statics_d0 (split_h split_v : ℤ → ℤ → ℤ) (point_oracle : ZoneRect → ℕ → ℤ × ℤ)
    (fuel : ℕ) (z : ZoneRect) (h : z.depth = 0) :
    create_static_in_zone point_oracle (subdivide_zone split_h split_v 3 (fuel + 3) z) = [] := by
  obtain ⟨h0, h1, h2, h3⟩ := primes_first_four
  rw [show fuel + 3 = (fuel + 2) + 1 from rfl, subdivide_succ split_h split_v 3 (fuel + 2) z]
  norm_num [h, h0, primes_length]
  rw [statics_node_cons, statics_list_cons, statics_list_cons, statics_list_cons,
    statics_list_nil]
  rw [statics_d1 split_h split_v point_oracle fuel _ rfl,
    statics_d1 split_h split_v point_oracle fuel _ rfl,
    statics_d1 split_h split_v point_oracle fuel _ rfl,
    statics_d1 split_h split_v point_oracle fuel _ rfl]
  simp

/-- C5: the zone path **never** places a static shape.  With `max_depth = 3`
every leaf of the zone tree is at depth 3, so the skip test of
`_create_static_shapes_in_zones` always looks at `primes[3 % 168] = 7`, and
`7 % 7 == 0` skips the zone — deterministically, not with the "roughly 1/7
chance" the code comments and the spec describe.  For every golden-ratio
split function and every random-point oracle the produced static-shape list
is empty. -/
theorem claim_c5_zone_statics_always_skipped (split_h split_v : ℤ → ℤ → ℤ)
    (point_oracle : ZoneRect → ℕ → ℤ × ℤ) :
    create_static_shapes_in_zones point_oracle (build_zone_tree split_h split_v) = [] :=
  statics_d0 split_h split_v point_oracle 1 root_zone rfl

/-! ## C6: the zone tiling invariant -/

/-- Membership of an integer point in a zone rectangle (half-open on the
right/bottom, the natural reading of an exact tiling). -/
def pt_in_zone (z : ZoneRect) (px py : ℤ) : Bool :=
  decide (z.x ≤ px) && decide (px < z.x + z.width) &&
    decide (z.y ≤ py) && decide (py < z.y + z.height)

/-- The area of a zone rectangle. -/
def zone_area (z : ZoneRect) : ℤ := z.width * z.height

lemma zone_leaves_node_nil (z : ZoneRect) : zone_leaves (.node z []) = [z] := rfl

lemma zone_leaves_node_cons (z : ZoneRect) (c : ZoneTree) (cs : List ZoneTree) :
    zone_leaves (.node z (c :: cs)) = zone_leaves c ++ zone_leaves_list cs := rfl

lemma zone_leaves_list_nil : zone_leaves_list [] = [] := rfl

lemma zone_leaves_list_cons (t : ZoneTree) (ts : List ZoneTree) :
    zone_leaves_list (t :: ts) = zone_leaves t ++ zone_leaves_list ts := rfl

/-- C6: for every zone tree built by the recursive subdivision engine (from a
zone with nonnegative dimensions, with both golden-ratio split functions
staying inside the interval they split — true of `int(a + b/φ)`), the leaf
rectangles exactly tile the root zone: every integer point of the root lies
in exactly one leaf and no leaf reaches outside the root, and the leaf areas
sum to the root area.  Since each subdivided node's children are obtained the
same way, the children of every node likewise tile that node's rectangle. -/
theorem claim_c6_zone_tiling (split_h split_v : ℤ → ℤ → ℤ)
    (hH : ∀ a b : ℤ, 0 ≤ b → a ≤ split_h a b ∧ split_h a b ≤ a + b)
    (hV : ∀ a b : ℤ, 0 ≤ b → a ≤ split_v a b ∧ split_v a b ≤ a + b)
    (max_depth : ℕ) :
    ∀ (fuel : ℕ) (z : ZoneRect), 0 ≤ z.width → 0 ≤ z.height →
      (∀ px py : ℤ,
        ((zone_leaves (subdivide_zone split_h split_v max_depth fuel z)).countP
          (fun r => pt_in_zone r px py)) = if pt_in_zone z px py then 1 else 0) ∧
      ((zone_leaves (subdivide_zone split_h split_v max_depth fuel z)).map zone_area).sum =
        zone_area z := by
  intro fuel
  induction fuel with
  | zero =>
    intro z hw hh
    constructor
    · intro px py
      simp [subdivide_zone, zone_leaves_node_nil, List.countP_cons]
    · simp [subdivide_zone, zone_leaves_node_nil]
  | succ f ih =>
    intro z hw hh
    by_cases hd : max_depth ≤ z.depth
    · rw [subdivide_succ, if_pos hd]
      constructor
      · intro px py
        simp [zone_leaves_node_nil, List.countP_cons]
      · simp [zone_leaves_node_nil]
    · rw [subdivide_succ, if_neg hd]
      by_cases hp1 : primes[z.depth % primes.length]! % 4 = 1
      · simp only [hp1, if_true]
        obtain ⟨hs1, hs2⟩ := hH z.y z.height hh
        have h1 := ih ⟨z.x, z.y, z.width, split_h z.y z.height - z.y, z.depth + 1⟩
          hw (by simp; omega)
        have h2 := ih ⟨z.x, split_h z.y z.height, z.width,
          z.y + z.height - split_h z.y z.height, z.depth + 1⟩ hw (by simp; omega)
        constructor
        · intro px py
          rw [zone_leaves_node_cons, zone_leaves_list_cons, zone_leaves_list_nil,
            List.append_nil, List.countP_append, h1.1 px py, h2.1 px py]
          simp only [pt_in_zone, Bool.and_eq_true, decide_eq_true_eq]
          split_ifs <;> omega
        · rw [zone_leaves_node_cons, zone_leaves_list_cons, zone_leaves_list_nil,
            List.append_nil, List.map_append, List.sum_append, h1.2, h2.2]
          simp only [zone_area]
          ring
      · by_cases hp3 : primes[z.depth % primes.length]! % 4 = 3
        · norm_num [hp3]
          obtain ⟨hs1, hs2⟩ := hV z.x z.width hw
          have h1 := ih ⟨z.x, z.y, split_v z.x z.width - z.x, z.height, z.depth + 1⟩
            (by simp; omega) hh
          have h2 := ih ⟨split_v z.x z.width, z.y, z.x + z.width - split_v z.x z.width,
            z.height, z.depth + 1⟩ (by simp; omega) hh
          constructor
          · intro px py
            rw [zone_leaves_node_cons, zone_leaves_list_cons, zone_leaves_list_nil,
              List.append_nil, List.countP_append, h1.1 px py, h2.1 px py]
            simp only [pt_in_zone, Bool.and_eq_true, decide_eq_true_eq]
            split_ifs <;> omega
          · rw [zone_leaves_node_cons, zone_leaves_list_cons, zone_leaves_list_nil,
              List.append_nil, List.map_append, List.sum_append, h1.2, h2.2]
            simp only [zone_area]
            ring
        · simp only [hp1, hp3, if_false]
          have h1 := ih ⟨z.x, z.y, z.x + z.width / 2 - z.x, z.y + z.height / 2 - z.y,
            z.depth + 1⟩ (by simp; omega) (by simp; omega)
          have h2 := ih ⟨z.x + z.width / 2, z.y, z.x + z.width - (z.x + z.width / 2),
            z.y + z.height / 2 - z.y, z.depth + 1⟩ (by simp; omega) (by simp; omega)
          have h3 := ih ⟨z.x, z.y + z.height / 2, z.x + z.width / 2 - z.x,
            z.y + z.height - (z.y + z.height / 2), z.depth + 1⟩ (by simp; omega) (by simp; omega)
          have h4 := ih ⟨z.x + z.width / 2, z.y + z.height / 2,
            z.x + z.width - (z.x + z.width / 2), z.y + z.height - (z.y + z.height / 2),
            z.depth + 1⟩ (by simp; omega) (by simp; omega)
          constructor
          · intro px py
            rw [zone_leaves_node_cons, zone_leaves_list_cons, zone_leaves_list_cons,
              zone_leaves_list_cons, zone_leaves_list_nil, List.append_nil,
              List.countP_append, List.countP_append, List.countP_append,
              h1.1 px py, h2.1 px py, h3.1 px py, h4.1 px py]
            simp only [pt_in_zone, Bool.and_eq_true, decide_eq_true_eq]
            split_ifs <;> omega
          · rw [zone_leaves_node_cons, zone_leaves_list_cons, zone_leaves_list_cons,
              zone_leaves_list_cons, zone_leaves_list_nil, List.append_nil,
              List.map_append, List.map_append, List.map_append,
              List.sum_append, List.sum_append, List.sum_append, h1.2, h2.2, h3.2, h4.2]
            simp only [zone_area]
            generalize z.width / 2 = wHalf
            generalize z.height / 2 = hHalf
            ring

/-- A concrete in-range stand-in for the golden-ratio split `int(a + b/φ)`
(the rational approximation `b·618/1000` of `b/φ`). -/
def golden_split_point (a b : ℤ) : ℤ := a + b * 618 / 1000

lemma golden_split_point_in_range (a b : ℤ) (hb : 0 ≤ b) :
    a ≤ golden_split_point a b ∧ golden_split_point a b ≤ a + b := by
  unfold golden_split_point
  omega

/-- C6 witness: the tiling property of the full generated tree at a concrete
point, and the exact leaf-area sum. -/
theorem claim_c6_zone_tiling_witness :
    ((zone_leaves (subdivide_zone golden_split_point golden_split_point 3 4 root_zone)).countP
        (fun r => pt_in_zone r 400 300)) = (if pt_in_zone root_zone 400 300 then 1 else 0) ∧
      ((zone_leaves (subdivide_zone golden_split_point golden_split_point 3 4 root_zone)).map
        zone_area).sum = zone_area root_zone :=
  ⟨(claim_c6_zone_tiling golden_split_point golden_split_point
      (fun a b hb => golden_split_point_in_range a b hb)
      (fun a b hb => golden_split_point_in_range a b hb) 3 4 root_zone
      (by decide) (by decide)).1 400 300,
    (claim_c6_zone_tiling golden_split_point golden_split_point
      (fun a b hb => golden_split_point_in_range a b hb)
      (fun a b hb => golden_split_point_in_range a b hb) 3 4 root_zone
      (by decide) (by decide)).2⟩

/-! ## C4 and C9: level persistence (`level_data.py`)

`LevelData.__init__` serialises the live shapes immediately
(`original_shapes = [shape_to_dict(s) for s in shapes]`), and
`get_fresh_shapes` deserialises them again; exceptions are modelled with
`Except`.  The `list(...)`/`tuple(...)` JSON colour conversions are exact
inverses on RGB triples, so the dict keeps the colour as a triple here. -/

/-- A Python exception value. -/
inductive PyError where
  | attributeError (attr : String)
  | typeError (msg : String)
  | valueError (msg : String)
deriving DecidableEq, Repr

/-- The dictionary built by `LevelData.shape_to_dict`: position, class-name
tag, colour, `size` (every `Shape` has one) and, when the shape has them,
`width`/`height`. -/
structure ShapeDict where
  x : ℚ
  y : ℚ
  shape_type : String
  color : RGB
  size : Option ℤ
  width : Option ℤ
  height : Option ℤ
deriving DecidableEq, Repr

/-- `shape.__class__.__name__`. -/
def class_name (sh : GameShape) : String :=
  match sh.variant with
  | .circle => "Circle"
  | .square => "Square"
  | .triangle => "Triangle"
  | .rectangle _ _ => "Rectangle"
  | .nestedShape _ _ => "NestedShape"
  | .staticShape _ _ _ => "StaticShape"

/-- `LevelData.shape_to_dict` (`level_data.py` lines 16–37).  For a
`NestedShape` (hence also a `StaticShape`) the method reads
`shape.stack_pattern` — an attribute of the legacy `FusedShape` API that
`nested_shapes.NestedShape` does not define — so serialisation raises
`AttributeError` before returning. -/
def shape_to_dict (sh : GameShape) : Except PyError ShapeDict :=
  let base : ShapeDict := { x := sh.x, y := sh.y, shape_type := class_name sh, color := sh.color, size := some sh.size, width := none, height := none }
  match sh.variant with
  | .rectangle w h => .ok { base with width := some w, height := some h }
  | .nestedShape _ _ => .error (.attributeError "stack_pattern")
  | .staticShape _ _ _ => .error (.attributeError "stack_pattern")
  | _ => .ok base

/-- `ShapeFactory.create_circle`: a missing size is drawn from
`randint(min_shape_size, max_shape_size)`, modelled by the `rng_size`
oracle value. -/
def create_circle (x y : ℚ) (color : RGB) (size : Option ℤ) (rng_size : ℤ) : GameShape :=
  mk_shape x y color (size.getD rng_size) .circle

/-- `ShapeFactory.create_square`. -/
def create_square (x y : ℚ) (color : RGB) (size : Option ℤ) (rng_size : ℤ) : GameShape :=
  mk_shape x y color (size.getD rng_size) .square

/-- `ShapeFactory.create_triangle`. -/
def create_triangle (x y : ℚ) (color : RGB) (size : Option ℤ) (rng_size : ℤ) : GameShape :=
  mk_shape x y color (size.getD rng_size) .triangle

/-- `ShapeFactory.create_rectangle`: `Rectangle.__init__` passes the default
size 30 to the `Shape` base constructor; missing width/height are drawn from
the oracle values. -/
def create_rectangle (x y : ℚ) (color : RGB) (width height : Option ℤ)
    (rng_width rng_height : ℤ) : GameShape :=
  mk_shape x y color 30 (.rectangle (width.getD rng_width) (height.getD rng_height))

/-- `LevelData.dict_to_shape` (`level_data.py` lines 39–59).  The
`'NestedShape'` branch calls `NestedShape(x, y, color, component_shapes,
stack_pattern)` against the actual signature `NestedShape(x, y, shells,
is_static)`: the colour triple lands in `shells` and
`outer_color, outer_size = shells[0]` tries to unpack an integer, raising
`TypeError` (a missing `component_shapes`/`stack_pattern` key would raise
`KeyError` even earlier — either way the branch always raises).  An unknown
tag raises `ValueError`. -/
def dict_to_shape (d : ShapeDict) (rng_size rng_width rng_height : ℤ) :
    Except PyError GameShape :=
  if d.shape_type = "NestedShape" then
    .error (.typeError "cannot unpack non-iterable int object")
  else if d.shape_type = "Circle" then
    .ok (create_circle d.x d.y d.color d.size rng_size)
  else if d.shape_type = "Square" then
    .ok (create_square d.x d.y d.color d.size rng_size)
  else if d.shape_type = "Triangle" then
    .ok (create_triangle d.x d.y d.color d.size rng_size)
  else if d.shape_type = "Rectangle" then
    .ok (create_rectangle d.x d.y d.color d.width d.height rng_width rng_height)
  else
    .error (.valueError ("Unknown shape type: " ++ d.shape_type))

/-- `LevelData.__init__`'s snapshot:
`[self.shape_to_dict(shape) for shape in shapes]` (the first raised
exception propagates). -/
def level_data_original_shapes (shapes : List GameShape) :
    Except PyError (List ShapeDict) :=
  shapes.mapM shape_to_dict

/-- `LevelData.get_fresh_shapes`:
`[self.dict_to_shape(d) for d in self.original_shapes]`. -/
def get_fresh_shapes (dicts : List ShapeDict) (rng_size rng_width rng_height : ℤ) :
    Except PyError (List GameShape) :=
  dicts.mapM (fun d => dict_to_shape d rng_size rng_width rng_height)

/-- A level produced by the generator that contains a nested shape: two plain
shapes plus the three-shell `NestedShape` of the spec's example scenario 3
(shells `[(RED,30),(BLUE,22),(GREEN,14)]` — `NestedShape.__init__` takes the
outermost shell's colour/size for the base `Shape` fields). -/
def c4_level_shapes : List GameShape :=
  [ mk_shape 100 100 Color_RED 30 .circle,
    mk_shape 200 150 Color_BLUE 25 .square,
    mk_shape 400 300 Color_RED 30
      (.nestedShape [(Color_RED, 30), (Color_BLUE, 22), (Color_GREEN, 14)] false) ]

/-- C4: saving a generator-produced level that contains a `NestedShape`
crashes instead of round-tripping: `LevelData.__init__` already raises
`AttributeError` while building `original_shapes`, because `shape_to_dict`
reads the legacy `FusedShape` attributes `stack_pattern`/`component_shapes`
which `nested_shapes.NestedShape` lacks.  No snapshot is produced, so
`save → load → get_fresh_shapes` cannot yield anything for such levels. -/
theorem claim_c4_nested_save_raises :
    level_data_original_shapes c4_level_shapes =
      Except.error (PyError.attributeError "stack_pattern") := by
  rfl

/-- The shape-type tags `dict_to_shape` knows. -/
def known_shape_type_tags : List String :=
  ["NestedShape", "Circle", "Square", "Triangle", "Rectangle"]

/-- C9: deserialising a persisted shape descriptor whose shape-type tag is
unknown raises `ValueError` — the load is rejected and the error surfaces to
the caller; no shape with guessed geometry is ever constructed. -/
theorem claim_c9_unknown_tag_rejected (d : ShapeDict) (rng_size rng_width rng_height : ℤ)
    (h : d.shape_type ∉ known_shape_type_tags) :
    dict_to_shape d rng_size rng_width rng_height =
      Except.error (PyError.valueError ("Unknown shape type: " ++ d.shape_type)) := by
  simp only [known_shape_type_tags, List.mem_cons, List.mem_singleton, not_or] at h
  obtain ⟨h1, h2, h3, h4, h5⟩ := h
  simp [dict_to_shape, h1, h2, h3, h4, h5]

/-- C9 witness: a descriptor tagged `"Unknown"` (the shape of
`test_dict_to_shape_unknown_type`) is rejected with `ValueError`. -/
theorem claim_c9_unknown_tag_witness :
    dict_to_shape
        { x := 100, y := 100, shape_type := "Unknown", color := Color_RED,
          size := none, width := none, height := none } 0 0 0 =
      Except.error (PyError.valueError "Unknown shape type: Unknown") :=
  claim_c9_unknown_tag_rejected _ 0 0 0 (by decide)

/-! ## C10: `LevelValidator.auto_fix_overlaps` (`level_validator.py` lines 170–221)

The `random.randint` position draws of attempts 1–49 come from the
`oracle` argument (indexed by shape position and attempt number). -/

/-- The probe shape `type(shape)(new_x, new_y, shape.color, …)` built inside
`auto_fix_overlaps`: rectangles are rebuilt from `width`/`height` (their base
size is the `Shape` default 30), the other plain shapes from `size`.  (Nested
shapes never reach this code path.) -/
def mk_temp_shape (sh : GameShape) (nx ny : ℚ) : GameShape :=
  match sh.variant with
  | .rectangle w h => mk_shape nx ny sh.color 30 (.rectangle w h)
  | v => mk_shape nx ny sh.color sh.size v

/-- The inner validity check: the probe keeps at least
`collision_radius(temp) + collision_radius(existing) + min_distance` from
every already-fixed non-nested shape. -/
def position_is_valid (sqrtQ : ℚ → ℚ) (temp : GameShape)
    (fixed_shapes : List GameShape) (min_distance : ℚ) : Bool :=
  fixed_shapes.all (fun existing =>
    if isNestedInstance existing then true
    else decide (((get_collision_radius temp + get_collision_radius existing : ℤ) : ℚ) +
      min_distance ≤ get_distance_to sqrtQ temp existing))

/-- The 50-attempt repositioning loop for one shape: attempt 0 keeps the
original position, later attempts draw from the oracle; the first valid
position is written to `shape.x`/`shape.y`, and when no attempt is valid the
shape keeps its original position. -/
def fix_attempts (sqrtQ : ℚ → ℚ) (oracle : ℕ → ℤ × ℤ)
    (fixed_shapes : List GameShape) (sh : GameShape) : ℕ → ℕ → GameShape
  | _, 0 => sh
  | attempt, r + 1 =>
    let p : ℚ × ℚ :=
      if attempt = 0 then (sh.x, sh.y)
      else (((oracle attempt).1 : ℚ), ((oracle attempt).2 : ℚ))
    let temp := mk_temp_shape sh p.1 p.2
    if position_is_valid sqrtQ temp fixed_shapes 25 then { sh with x := p.1, y := p.2 }
    else fix_attempts sqrtQ oracle fixed_shapes sh (attempt + 1) r

/-- The main loop of `auto_fix_overlaps`: nested shapes are appended to
`fixed_shapes` untouched, every other shape goes through the attempt loop
(checking only against the shapes already in `fixed_shapes`). -/
def auto_fix_go (sqrtQ : ℚ → ℚ) (oracle : ℕ → ℕ → ℤ × ℤ) :
    List GameShape → ℕ → List GameShape → List GameShape
  | [], _, fixed_shapes => fixed_shapes
  | sh :: rest, idx, fixed_shapes =>
    if isNestedInstance sh then
      auto_fix_go sqrtQ oracle rest (idx + 1) (fixed_shapes ++ [sh])
    else
      auto_fix_go sqrtQ oracle rest (idx + 1)
        (fixed_shapes ++ [fix_attempts sqrtQ (oracle idx) fixed_shapes sh 0 50])

/-- `LevelValidator.auto_fix_overlaps`. -/
def auto_fix_overlaps (sqrtQ : ℚ → ℚ) (oracle : ℕ → ℕ → ℤ × ℤ)
    (shapes : List GameShape) : List GameShape :=
  auto_fix_go sqrtQ oracle shapes 0 []

/-- A shape with its position erased, for stating "everything but `x`/`y` is
unchanged". -/
def strip_position (sh : GameShape) : GameShape := { sh with x := 0, y := 0 }

lemma fix_attempts_strip (sqrtQ : ℚ → ℚ) (oracle : ℕ → ℤ × ℤ)
    (fixed_shapes : List GameShape) (sh : GameShape) :
    ∀ (attempt remaining : ℕ),
      strip_position (fix_attempts sqrtQ oracle fixed_shapes sh attempt remaining) =
        strip_position sh := by
  intro attempt remaining
  induction remaining generalizing attempt with
  | zero => rfl
  | succ r ih =>
    simp only [fix_attempts]
    split <;> split <;> first | rfl | exact ih _

lemma auto_fix_go_spec (sqrtQ : ℚ → ℚ) (oracle : ℕ → ℕ → ℤ × ℤ) :
    ∀ (shapes : List GameShape) (idx : ℕ) (fixed_shapes : List GameShape),
      ∃ out, auto_fix_go sqrtQ oracle shapes idx fixed_shapes = fixed_shapes ++ out ∧
        out.length = shapes.length ∧
        ((out.zip shapes).all (fun p =>
          decide (strip_position p.1 = strip_position p.2) &&
            (!(isNestedInstance p.2) || decide (p.1 = p.2)))) = true := by
  intro shapes
  induction shapes with
  | nil => intro idx fixed_shapes; exact ⟨[], by simp [auto_fix_go], rfl, rfl⟩
  | cons sh rest ih =>
    intro idx fixed_shapes
    by_cases hnest : isNestedInstance sh
    · obtain ⟨out, hout, hlen, hall⟩ := ih (idx + 1) (fixed_shapes ++ [sh])
      refine ⟨sh :: out, ?_, by simp [hlen], ?_⟩
      · simp only [auto_fix_go, hnest, if_true]
        rw [hout, List.append_assoc]
        rfl
      · simp only [List.zip_cons_cons, List.all_cons, hall, Bool.and_true]
        simp [hnest]
    · obtain ⟨out, hout, hlen, hall⟩ := ih (idx + 1)
        (fixed_shapes ++ [fix_attempts sqrtQ (oracle idx) fixed_shapes sh 0 50])
      refine ⟨fix_attempts sqrtQ (oracle idx) fixed_shapes sh 0 50 :: out, ?_, by simp [hlen], ?_⟩
      · simp only [auto_fix_go, hnest, if_false]
        rw [hout, List.append_assoc]
        rfl
      · simp only [List.zip_cons_cons, List.all_cons, hall, Bool.and_true]
        simp [hnest, fix_attempts_strip]

/-- C10: `auto_fix_overlaps` returns a list of the same length with, at each
position, the same shape: a `NestedShape`/`StaticShape` is returned
completely untouched, and for every other shape only the `x`/`y` fields may
differ — colour, size, width, height and shape kind are unchanged. -/
theorem claim_c10_auto_fix_only_moves (sqrtQ : ℚ → ℚ) (oracle : ℕ → ℕ → ℤ × ℤ)
    (shapes : List GameShape) :
    (auto_fix_overlaps sqrtQ oracle shapes).length = shapes.length ∧
      (((auto_fix_overlaps sqrtQ oracle shapes).zip shapes).all (fun p =>
        decide (strip_position p.1 = strip_position p.2) &&
          (!(isNestedInstance p.2) || decide (p.1 = p.2)))) = true := by
  obtain ⟨out, hout, hlen, hall⟩ := auto_fix_go_spec sqrtQ oracle shapes 0 []
  unfold auto_fix_overlaps
  rw [hout, List.nil_append]
  exact ⟨hlen, hall⟩
